import Mathlib

/-!
Verification of the torotator proxy-pool orchestrator.

Shallow embedding of the orchestrator's core: the port allocator
(cmd/ports.go portPlz), the backend registry and the rendered HAProxy
configuration (cmd/haproxy.go Backends, HAPROXY_TPL, WriteConfig,
AddBackend, RemoveBackend), the debounced reload state machine
(cmd/haproxy.go Reload), the handoff handle bookkeeping
(cmd/haproxy.go and its earlier variant's Reload), the worker-pair
retirement sequence (cmd/torotator.go RunProxy), process termination
(cmd/cmd.go Close, cmd/ports.go Tor.Close), output classification
(cmd/cmd.go Wait, cmd/haproxy.go HAProxyLogger, cmd/ports.go TorLogger,
the Privoxy variant's PrivoxyLogger), and the completion signal
(cmd/cmd.go Done, Wait).
-/

/-! ## Port allocator (cmd/ports.go, constant from cmd/rotate.go) -/

/-- The floor of the allocator range: PORT_RANGE_START = 30000. -/
def PORT_RANGE_START : Nat := 30000

/-- One call of portPlz (cmd/ports.go), as a function of the global
nextPort counter: returns the leased port and the new counter value.
Mirrors: if nextPort == 0 or nextPort >= 65535 then nextPort =
PORT_RANGE_START; p := nextPort; nextPort++. -/
def portPlz (nextPort : Nat) : Nat × Nat :=
  let np := if nextPort = 0 ∨ 65535 ≤ nextPort then PORT_RANGE_START else nextPort
  (np, np + 1)

/-- Counter value before the k-th lease; the Go global starts at the
zero value 0. -/
def portState : Nat → Nat
  | 0 => 0
  | k + 1 => (portPlz (portState k)).2

/-- Port returned by the k-th lease (0-based) when no ports are released. -/
def portAt (k : Nat) : Nat := (portPlz (portState k)).1

/-! ## Backend registry and rendered configuration (cmd/haproxy.go) -/

/-- A mutation of the Backends registry: AddBackend or RemoveBackend. -/
inductive RegOp
  | add (port : Nat)
  | remove (port : Nat)
deriving DecidableEq

/-- Effect of one registry mutation on the key set of the Backends map
(the map value is the empty struct, so only keys matter). -/
def applyOp (s : Finset Nat) : RegOp → Finset Nat
  | .add p => insert p s
  | .remove p => s.erase p

/-- Registry contents after a sequence of AddBackend/RemoveBackend calls. -/
def applyOps (s : Finset Nat) (ops : List RegOp) : Finset Nat :=
  ops.foldl applyOp s

/-- The backend block rendered by WriteConfig: the template ranges over
the Backends map, emitting exactly one server upstream line per key,
and Go's text/template visits map keys in sorted order.  The rendered
block is modelled by its list of upstream ports. -/
def renderBackends (s : Finset Nat) : List Nat :=
  s.sort (· ≤ ·)

/-- Does a registry mutation mention port p? -/
def touches (p : Nat) : RegOp → Bool
  | .add q => q == p
  | .remove q => q == p

/-- The last AddBackend/RemoveBackend mentioning p in a call sequence. -/
def lastOpOn (p : Nat) (ops : List RegOp) : Option RegOp :=
  (ops.filter (touches p)).getLast?

/-! ## Debounced reload controller (cmd/haproxy.go Reload, WriteConfig) -/

/-- Observable state of the HAProxy controller: the Backends registry,
the rendered backends in the on-disk config file, the occupancy of the
capacity-1 reloadQ channel, and how many replacement haproxy instances
have been started. -/
structure HAState where
  backends : Finset Nat
  conf : List Nat
  queued : Nat
  execs : Nat
deriving DecidableEq

/-- Events of the controller: a backend mutation (which renders the
config and requests a reload), and the two ways the queue holder's wait
inside Reload can end: the 2s debounce timer fires, or the 10s safety
net (time.After) fires first. -/
inductive HAEvent
  | addBackend (p : Nat)
  | removeBackend (p : Nat)
  | timerFire
  | safetyTimeout
deriving DecidableEq

/-- Reload's enqueue attempt: select h.reloadQ <- true / default on a
capacity-1 channel.  A request finding the slot occupied is dropped. -/
def reloadRequest (s : HAState) : HAState :=
  if s.queued = 0 then { s with queued := 1 } else s

/-- One controller event.  AddBackend/RemoveBackend mutate the registry
under the mutex, WriteConfig re-renders the whole registry to the file,
then Reload re-arms the timer and tries to enqueue.  When the debounce
timer fires, the queue holder starts the replacement instance reading
the config file (execs increments) and the deferred receive empties the
queue; when the 10s safety net fires first, Reload returns before
NewCommand, so only the deferred receive runs. -/
def haStep (s : HAState) : HAEvent → HAState
  | .addBackend p =>
      let b := insert p s.backends
      reloadRequest { s with backends := b, conf := renderBackends b }
  | .removeBackend p =>
      let b := s.backends.erase p
      reloadRequest { s with backends := b, conf := renderBackends b }
  | .timerFire =>
      if s.queued = 0 then s
      else { s with queued := 0, execs := s.execs + 1 }
  | .safetyTimeout =>
      if s.queued = 0 then s else { s with queued := 0 }

/-- Run a sequence of controller events. -/
def haRun (s : HAState) (es : List HAEvent) : HAState := es.foldl haStep s

/-- Controller state right after NewHAProxy: empty registry, the initial
unconditional WriteConfig has rendered it, nothing queued, the initial
instance is running and no replacement has been started. -/
def haInit : HAState :=
  { backends := ∅, conf := renderBackends ∅, queued := 0, execs := 0 }

/-- Registry-mutating events (the ones AddBackend/RemoveBackend produce). -/
def isMutation : HAEvent → Bool
  | .addBackend _ => true
  | .removeBackend _ => true
  | .timerFire => false
  | .safetyTimeout => false

/-! ## Handoff handle bookkeeping (cmd/haproxy.go Reload tail) -/

/-- A started haproxy Cmd, identified by its pid.  An Option HACmd
models the controller's h.cmd field, where none is a nil Cmd pointer. -/
structure HACmd where
  pid : Nat
deriving DecidableEq

/-- Reading the pid through the handle (h.cmd.Pid()): dereferencing a
nil handle panics, modelled as none. -/
def pidOf : Option HACmd → Option Nat
  | none => none
  | some c => some c.pid

/-- Done() forwards to h.cmd.Done(); the field access through a nil
handle panics, modelled as none. -/
def doneChanOf : Option HACmd → Option Unit
  | none => none
  | some _ => some ()

/-- What the handoff section of Reload leaves behind. -/
structure ReloadOutcome where
  newCmd : Option HACmd
  errReturned : Bool
  oldClosed : Bool
deriving DecidableEq

/-- The handoff tail of Reload: h.cmd, err = NewCommand(haproxy, -f conf,
-sf h.cmd.Pid()).  The multi-assignment stores NewCommand's result in
h.cmd before err is examined, and NewCommand returns nil together with
an error, so a failed start leaves h.cmd = nil; the old instance is not
closed on that path (the earlier variant closes prev only on success).
The outer none models the panic from reading the pid off a nil handle. -/
def reloadHandoff (old : Option HACmd) (spawn : Nat → Option HACmd) :
    Option ReloadOutcome :=
  match pidOf old with
  | none => none
  | some pid =>
    match spawn pid with
    | none => some { newCmd := none, errReturned := true, oldClosed := false }
    | some c => some { newCmd := some c, errReturned := false, oldClosed := true }

/-- A spawn attempt that fails (NewCommand returns nil, err). -/
def failSpawn : Nat → Option HACmd := fun _ => none

/-! ## Worker-pair retirement (cmd/torotator.go RunProxy) -/

/-- The four ways the select in RunProxy wakes up. -/
inductive RetireReason
  | shutdownSignal
  | torExited
  | privoxyExited
  | lifetimeExpired
deriving DecidableEq

/-- The externally visible actions of the retirement tail of RunProxy. -/
inductive PairAction
  | removeBackend (port : Nat)
  | closePrivoxy
  | closeTor
  | unmapPorts (torPort privoxyPort : Nat)
deriving DecidableEq

/-- The retirement tail of RunProxy: whichever select case fires, the
continuation is the same straight-line code:
ha.RemoveBackend(ctx, privoxy.port); privoxy.Close(); tor.Close();
unmapPorts(tor.port, privoxy.port). -/
def runProxyRetire (torPort privoxyPort : Nat) : RetireReason → List PairAction
  | .shutdownSignal =>
      [.removeBackend privoxyPort, .closePrivoxy, .closeTor,
        .unmapPorts torPort privoxyPort]
  | .torExited =>
      [.removeBackend privoxyPort, .closePrivoxy, .closeTor,
        .unmapPorts torPort privoxyPort]
  | .privoxyExited =>
      [.removeBackend privoxyPort, .closePrivoxy, .closeTor,
        .unmapPorts torPort privoxyPort]
  | .lifetimeExpired =>
      [.removeBackend privoxyPort, .closePrivoxy, .closeTor,
        .unmapPorts torPort privoxyPort]

/-- The action that deregisters the backend from the registry. -/
def isDereg : PairAction → Bool
  | .removeBackend _ => true
  | _ => false

/-- The actions that kill one of the pair's processes. -/
def isKill : PairAction → Bool
  | .closePrivoxy => true
  | .closeTor => true
  | _ => false

/-- The action that releases the leased ports. -/
def isRelease : PairAction → Bool
  | .unmapPorts _ _ => true
  | _ => false

/-! ## Process termination (cmd/cmd.go Close, cmd/ports.go Tor.Close) -/

/-- What Cmd.Close can observe of the process: whether ProcessState is
already non-nil on entry, the outcome of Process.Kill when invoked, and
the outcome of cmd.Wait when invoked (after a successful kill this is
the error string signal killed). -/
structure ProcSnapshot where
  exited : Bool
  killErr : Option String
  waitErr : Option String
deriving DecidableEq

/-- The result of Cmd.Close: the returned error and whether Kill ran. -/
structure CloseResult where
  err : Option String
  killInvoked : Bool
deriving DecidableEq

/-- Cmd.Close (cmd/cmd.go): if ProcessState is non-nil, return nil
without killing; otherwise Kill (surfacing its error), then Wait to
reap, surfacing its error. -/
def cmdClose (p : ProcSnapshot) : CloseResult :=
  if p.exited then { err := none, killInvoked := false }
  else
    match p.killErr with
    | some e => { err := some e, killInvoked := true }
    | none =>
      match p.waitErr with
      | some e => { err := some e, killInvoked := true }
      | none => { err := none, killInvoked := true }

/-- The result of Tor.Close: the value finally returned and whether the
failed-to-kill-server error log was emitted. -/
structure TorCloseResult where
  err : Option String
  loggedKillError : Bool
deriving DecidableEq

/-- Tor.Close (cmd/ports.go): calls t.cmd.Close(); an error is logged as
failed-to-kill-server only when it is not the expected signal-killed
outcome; the deferred os.RemoveAll reassigns the named return err on
every path, so the final result is the RemoveAll outcome. -/
def torClose (p : ProcSnapshot) (removeDirErr : Option String) : TorCloseResult :=
  let c := cmdClose p
  { err := removeDirErr
    loggedKillError :=
      match c.err with
      | some e => !(e == "signal: killed")
      | none => false }

/-! ## Go string primitives for the output classifiers -/

/-- Go slice expression s[i:] on a string, with an Int index because it
is combined with strings.Index results; none models the out-of-range
panic (needs 0 <= i <= len(s)). -/
def goDrop (s : List Char) (i : Int) : Option (List Char) :=
  if 0 ≤ i ∧ i ≤ s.length then some (s.drop i.toNat) else none

/-- Go slice expression s[:i]; none models the out-of-range panic. -/
def goTake (s : List Char) (i : Int) : Option (List Char) :=
  if 0 ≤ i ∧ i ≤ s.length then some (s.take i.toNat) else none

/-- First index of a character, or none. -/
def idxOfChar (c : Char) : List Char → Option Nat
  | [] => none
  | a :: rest => if a == c then some 0 else (idxOfChar c rest).map (fun i => i + 1)

/-- strings.Index restricted to one-character needles: the first index,
or -1 when absent. -/
def goIndexOf (s : List Char) (c : Char) : Int :=
  match idxOfChar c s with
  | some i => (i : Int)
  | none => -1

/-! ## Output classifiers (TorLogger, HAProxyLogger, PrivoxyLogger) -/

/-- TorLogger (cmd/ports.go): line = line[21:]; lvlPos = Index(line, rbracket);
level = line[:lvlPos]; msg = line[lvlPos+2:]. -/
def torLogger (line : List Char) : Option (List Char × List Char) :=
  (goDrop line 21).bind fun rest =>
    (goTake rest (goIndexOf rest ']')).bind fun level =>
      (goDrop rest (goIndexOf rest ']' + 2)).map fun msg => (level, msg)

/-- The level normalization switch in HAProxyLogger: alert becomes error,
warning becomes warn, anything else passes through (after ToLower). -/
def mapHaLevel (lvl : List Char) : List Char :=
  if lvl = ("alert").toList then ("error").toList
  else if lvl = ("warning").toList then ("warn").toList
  else lvl

/-- HAProxyLogger (cmd/haproxy.go): line = line[1:]; lvlPos =
Index(line, rbracket); level = ToLower(line[:lvlPos]) run through the
alert/warning switch; line = line[lvlPos:]; msgPos = Index(line, colon);
msg = line[msgPos+2:]. -/
def haproxyLogger (line : List Char) : Option (List Char × List Char) :=
  (goDrop line 1).bind fun rest =>
    (goTake rest (goIndexOf rest ']')).bind fun levelRaw =>
      (goDrop rest (goIndexOf rest ']')).bind fun rest2 =>
        (goDrop rest2 (goIndexOf rest2 ':' + 2)).map fun msg =>
          (mapHaLevel (levelRaw.map Char.toLower), msg)

/-- The level cleanup in PrivoxyLogger: ToLower, and when the level
contains a space keep only the first word. -/
def privoxyLevel (levelRaw : List Char) : List Char :=
  let lower := levelRaw.map Char.toLower
  if lower.contains ' ' then lower.takeWhile (fun a => !(a == ' ')) else lower

/-- PrivoxyLogger (the Privoxy variant): line = line[37:]; lvlPos =
Index(line, colon); level = cleanup(line[:lvlPos]); msg = line[lvlPos+2:]. -/
def privoxyLogger (line : List Char) : Option (List Char × List Char) :=
  (goDrop line 37).bind fun rest =>
    (goTake rest (goIndexOf rest ':')).bind fun levelRaw =>
      (goDrop rest (goIndexOf rest ':' + 2)).map fun msg =>
        (privoxyLevel levelRaw, msg)

/-! ## Severity dispatch and the completion signal (cmd/cmd.go Wait, Done) -/

/-- The severity a line is finally emitted at. -/
inductive LogLevel
  | debug
  | info
  | warn
  | error
deriving DecidableEq

/-- The switch in Cmd.Wait over the classifier's level string:
case debug; case warn; case err, fatal; default info. -/
def waitDispatch (level : List Char) : LogLevel :=
  if level = ("debug").toList then .debug
  else if level = ("warn").toList then .warn
  else if level = ("err").toList ∨ level = ("fatal").toList then .error
  else .info

/-- The done channel of a Cmd; fired means close(c.done) has run. -/
structure DoneSignal where
  fired : Bool
deriving DecidableEq

/-- close(c.done). -/
def fireDone (_ : DoneSignal) : DoneSignal := { fired := true }

/-- Receiving from the done channel once it is closed: the receive
completes immediately and does not consume the signal, so the channel
state is unchanged for every further waiter. -/
def observeDone (d : DoneSignal) : Bool × DoneSignal := (d.fired, d)

/-- The observable steps of Cmd.Wait. -/
inductive WaitEvent
  | emitted (lvl : LogLevel) (msg : List Char)
  | processExit
  | doneFired
deriving DecidableEq

/-- The structure of Cmd.Wait (cmd/cmd.go): the scanner loop emits one
classified line per line of merged output, then cmd.Wait() reaps the
exited process, then close(c.done) fires the completion signal. -/
def cmdWaitTrace (emits : List (LogLevel × List Char)) : List WaitEvent :=
  (emits.map fun e => WaitEvent.emitted e.1 e.2)
    ++ [WaitEvent.processExit, WaitEvent.doneFired]

/-- Recognizer for the completion-signal step. -/
def isDoneFired : WaitEvent → Bool
  | .doneFired => true
  | _ => false

/-- Recognizer for the process-exit step. -/
def isProcessExit : WaitEvent → Bool
  | .processExit => true
  | _ => false

/-! ## Theorems -/

/-- C7: for every sequence of portPlz calls with no releases, the k-th
returned value is the floor 30000 plus k modulo the 35535 ports of one
sweep; hence returns are strictly increasing by one until the counter
reaches the ceiling 65535, after which the next return resumes at the
floor, and every return lies in the range 30000..65534. -/
theorem portPlz_monotone_wraparound (k : Nat) :
    portAt k = PORT_RANGE_START + k % 35535 ∧
    PORT_RANGE_START ≤ portAt k ∧ portAt k < 65535 ∧
    portAt (k + 1) =
      (if 65535 ≤ portAt k + 1 then PORT_RANGE_START else portAt k + 1) := by
  have key : ∀ n, portAt n = PORT_RANGE_START + n % 35535 := by
    intro n
    induction n with
    | zero => rfl
    | succ m ih =>
      have hm : m % 35535 < 35535 := Nat.mod_lt _ (by norm_num)
      have hsucc : (m + 1) % 35535 = (m % 35535 + 1) % 35535 := by
        conv_lhs => rw [Nat.add_mod]
      have hstate : portState (m + 1) = portAt m + 1 := rfl
      by_cases htop : m % 35535 = 35534
      · have h1 : portAt m + 1 = 65535 := by
          rw [ih, htop]; rfl
        have h2 : (m + 1) % 35535 = 0 := by
          rw [hsucc, htop]
        show (portPlz (portState (m + 1))).1 = _
        rw [hstate, h1, h2]
        decide
      · have hlt : m % 35535 + 1 < 35535 := by omega
        have h2 : (m + 1) % 35535 = m % 35535 + 1 := by
          rw [hsucc, Nat.mod_eq_of_lt hlt]
        have h1 : portAt m + 1 = PORT_RANGE_START + (m % 35535 + 1) := by
          rw [ih]; omega
        have hne0 : ¬ (portAt m + 1 = 0 ∨ 65535 ≤ portAt m + 1) := by
          rw [h1]; unfold PORT_RANGE_START; omega
        show (portPlz (portState (m + 1))).1 = _
        rw [hstate, h2]
        unfold portPlz
        simp only [if_neg hne0]
        omega
  refine ⟨key k, ?_, ?_, ?_⟩
  · rw [key k]; omega
  · have := Nat.mod_lt k (show 0 < 35535 by norm_num)
    rw [key k]; unfold PORT_RANGE_START; omega
  · have hk := key k
    have hk1 := key (k + 1)
    have hm : k % 35535 < 35535 := Nat.mod_lt _ (by norm_num)
    have hsucc : (k + 1) % 35535 = (k % 35535 + 1) % 35535 := by
      conv_lhs => rw [Nat.add_mod]
    rw [hk1, hk]
    unfold PORT_RANGE_START
    by_cases htop : k % 35535 = 35534
    · rw [if_pos (by omega), hsucc, htop]
    · rw [if_neg (by omega), hsucc, Nat.mod_eq_of_lt (by omega)]
      omega

/-- C3 (code behavior at the failing input): with a live proxy handle of
pid 42, a failed replacement start leaves the stored handle nil while
returning the error and never closing the old process; through the nil
handle both Done and the next Reload's pid read panic (modelled none),
so the promised retry is impossible. -/
theorem reload_failed_handoff_loses_handle :
    reloadHandoff (some { pid := 42 }) failSpawn
        = some { newCmd := none, errReturned := true, oldClosed := false } ∧
    pidOf none = none ∧
    doneChanOf none = none ∧
    reloadHandoff none failSpawn = none :=
  ⟨rfl, rfl, rfl, rfl⟩

/-- C2 counterexample: one reload request puts the controller in the
pending state, yet when the 10 second safety net fires before the
debounce timer, Reload returns without ever starting a replacement
instance: the queue empties and zero reload executions have occurred,
so the safety ceiling does not force a reload execution. -/
theorem reload_safety_ceiling_executes_nothing :
    (haRun haInit [HAEvent.addBackend 30001]).queued = 1 ∧
    (haRun haInit [HAEvent.addBackend 30001, HAEvent.safetyTimeout]).execs = 0 ∧
    (haRun haInit [HAEvent.addBackend 30001, HAEvent.safetyTimeout]).queued = 0 :=
  ⟨rfl, rfl, rfl⟩

/-- C2 amended: whenever a reload has been requested (the queue slot is
occupied), the slot is eventually vacated, but only the quiet-period
timer firing executes a reload (starts a replacement instance); when the
10 second safety ceiling elapses first, Reload returns without starting
a replacement, so the batch ends with no reload execution. -/
theorem reload_pending_resolution (s : HAState) (h : s.queued = 1) :
    (haStep s HAEvent.timerFire).execs = s.execs + 1 ∧
    (haStep s HAEvent.timerFire).queued = 0 ∧
    (haStep s HAEvent.safetyTimeout).execs = s.execs ∧
    (haStep s HAEvent.safetyTimeout).queued = 0 := by
  simp [haStep, h]

/-- Witness for the amended C2 at a concrete pending state. -/
theorem reload_pending_resolution_witness :
    (haStep { backends := ∅, conf := [], queued := 1, execs := 0 }
        HAEvent.timerFire).execs = 0 + 1 ∧
    (haStep { backends := ∅, conf := [], queued := 1, execs := 0 }
        HAEvent.timerFire).queued = 0 ∧
    (haStep { backends := ∅, conf := [], queued := 1, execs := 0 }
        HAEvent.safetyTimeout).execs = 0 ∧
    (haStep { backends := ∅, conf := [], queued := 1, execs := 0 }
        HAEvent.safetyTimeout).queued = 0 :=
  reload_pending_resolution { backends := ∅, conf := [], queued := 1, execs := 0 } rfl

/-- applyOps over a sequence extended by one call. -/
theorem applyOps_concat (s : Finset Nat) (ops : List RegOp) (op : RegOp) :
    applyOps s (ops ++ [op]) = applyOp (applyOps s ops) op := by
  simp [applyOps, List.foldl_append]

/-- lastOpOn over a sequence extended by one call. -/
theorem lastOpOn_concat (p : Nat) (ops : List RegOp) (op : RegOp) :
    lastOpOn p (ops ++ [op]) =
      if touches p op then some op else lastOpOn p ops := by
  unfold lastOpOn
  rw [List.filter_append]
  by_cases h : touches p op
  · simp [h, List.getLast?_concat]
  · simp [h]

/-- A mutation that does not mention p leaves membership of p unchanged. -/
theorem mem_applyOp_not_touches {p : Nat} {op : RegOp}
    (h : touches p op = false) (s : Finset Nat) :
    p ∈ applyOp s op ↔ p ∈ s := by
  cases op with
  | add q =>
    simp only [touches, beq_eq_false_iff_ne, ne_eq] at h
    constructor
    · intro hm
      rcases Finset.mem_insert.1 hm with hpq | hs
      · exact absurd hpq.symm h
      · exact hs
    · intro hs
      exact Finset.mem_insert_of_mem hs
  | remove q =>
    simp only [touches, beq_eq_false_iff_ne, ne_eq] at h
    constructor
    · intro hm
      exact (Finset.mem_erase.1 hm).2
    · intro hs
      exact Finset.mem_erase.2 ⟨fun hpq => h hpq.symm, hs⟩

/-- A port whose last mention in the call sequence is a removal is not
in the resulting registry, from any starting registry. -/
theorem not_mem_of_lastOp_remove {p : Nat} {ops : List RegOp}
    (h : lastOpOn p ops = some (RegOp.remove p)) (s : Finset Nat) :
    p ∉ applyOps s ops := by
  induction ops using List.reverseRecOn with
  | nil => simp [lastOpOn] at h
  | append_singleton ops op ih =>
    rw [lastOpOn_concat] at h
    rw [applyOps_concat]
    by_cases ht : touches p op
    · rw [if_pos ht] at h
      have hop : op = RegOp.remove p := Option.some.inj h
      subst hop
      simp [applyOp]
    · rw [if_neg ht] at h
      rw [mem_applyOp_not_touches (by simpa using ht)]
      exact ih h

/-- C1: after any sequence of AddBackend/RemoveBackend calls, the
backend block rendered by WriteConfig lists each registered port as
exactly one server upstream line (count 1 for registered ports, 0 for
unregistered ones, no duplicates), and a port whose last mutation
before the render was a removal does not appear. -/
theorem haproxy_config_renders_registry_exactly
    (ops ops2 : List RegOp) (p q : Nat)
    (h : lastOpOn q ops2 = some (RegOp.remove q)) :
    ((renderBackends (applyOps ∅ ops)).count p
        = if p ∈ applyOps ∅ ops then 1 else 0) ∧
    (renderBackends (applyOps ∅ ops)).Nodup ∧
    q ∉ renderBackends (applyOps ∅ ops2) := by
  refine ⟨?_, Finset.sort_nodup _ _, ?_⟩
  · by_cases hp : p ∈ applyOps ∅ ops
    · rw [if_pos hp]
      exact List.count_eq_one_of_mem (Finset.sort_nodup _ _)
        ((Finset.mem_sort _).2 hp)
    · rw [if_neg hp]
      exact List.count_eq_zero.2 fun hc => hp ((Finset.mem_sort _).1 hc)
  · intro hc
    exact not_mem_of_lastOp_remove h ∅ ((Finset.mem_sort _).1 hc)

/-- Witness for C1: two registrations render exactly once each, and a
port that was added then removed is absent from the render. -/
theorem haproxy_config_renders_registry_exactly_witness :
    ((renderBackends (applyOps ∅ [RegOp.add 30001, RegOp.add 30002])).count 30001
        = if 30001 ∈ applyOps ∅ [RegOp.add 30001, RegOp.add 30002] then 1 else 0) ∧
    (renderBackends (applyOps ∅ [RegOp.add 30001, RegOp.add 30002])).Nodup ∧
    30001 ∉ renderBackends
        (applyOps ∅ [RegOp.add 30001, RegOp.add 30002, RegOp.remove 30001]) :=
  haproxy_config_renders_registry_exactly
    [RegOp.add 30001, RegOp.add 30002]
    [RegOp.add 30001, RegOp.add 30002, RegOp.remove 30001]
    30001 30001 (by decide)

/-- Running one event then the rest. -/
theorem haRun_cons (s : HAState) (e : HAEvent) (es : List HAEvent) :
    haRun s (e :: es) = haRun (haStep s e) es := rfl

/-- A registry mutation keeps the execution count, occupies the queue
slot exactly when it was free, and leaves the config file as the render
of the new registry. -/
theorem haStep_mut (e : HAEvent) (h : isMutation e = true) (s : HAState) :
    (haStep s e).execs = s.execs ∧
    (haStep s e).queued = (if s.queued = 0 then 1 else s.queued) ∧
    (haStep s e).conf = renderBackends (haStep s e).backends := by
  cases e with
  | addBackend p =>
    simp only [haStep, reloadRequest]
    split <;> simp_all
  | removeBackend p =>
    simp only [haStep, reloadRequest]
    split <;> simp_all
  | timerFire => simp [isMutation] at h
  | safetyTimeout => simp [isMutation] at h

/-- While the slot is occupied, further mutations are dropped by the
capacity-1 queue: the slot stays occupied and no reload executes. -/
theorem haRun_mut_pending : ∀ (ops : List HAEvent),
    (∀ e ∈ ops, isMutation e = true) → ∀ s : HAState, s.queued = 1 →
    (haRun s ops).queued = 1 ∧ (haRun s ops).execs = s.execs := by
  intro ops
  induction ops with
  | nil => intro _ s hq; exact ⟨hq, rfl⟩
  | cons e rest ih =>
    intro hall s hq
    have he := hall e (by simp)
    obtain ⟨hex, hqe, _⟩ := haStep_mut e he s
    have hq1 : (haStep s e).queued = 1 := by simp [hqe, hq]
    obtain ⟨h1, h2⟩ := ih (fun x hx => hall x (by simp [hx])) (haStep s e) hq1
    rw [haRun_cons]
    exact ⟨h1, h2.trans hex⟩

/-- Every controller event preserves the invariant that the on-disk
config is the render of the current registry. -/
theorem haStep_conf (s : HAState) (e : HAEvent)
    (h : s.conf = renderBackends s.backends) :
    (haStep s e).conf = renderBackends (haStep s e).backends := by
  cases e with
  | addBackend p =>
    simp only [haStep, reloadRequest]
    split <;> simp
  | removeBackend p =>
    simp only [haStep, reloadRequest]
    split <;> simp
  | timerFire =>
    simp only [haStep]
    split <;> simp [h]
  | safetyTimeout =>
    simp only [haStep]
    split <;> simp [h]

/-- The config-freshness invariant holds along every run. -/
theorem haRun_conf : ∀ (es : List HAEvent) (s : HAState),
    s.conf = renderBackends s.backends →
    (haRun s es).conf = renderBackends (haRun s es).backends := by
  intro es
  induction es with
  | nil => intro s h; exact h
  | cons e rest ih =>
    intro s h
    rw [haRun_cons]
    exact ih _ (haStep_conf s e h)

/-- When the slot is occupied, the debounce timer firing executes the
reload: the holder starts the replacement and the queue empties. -/
theorem haStep_timerFire (s : HAState) (h : s.queued = 1) :
    haStep s HAEvent.timerFire = { s with queued := 0, execs := s.execs + 1 } := by
  simp [haStep, h]

/-- Every controller event keeps the queue occupancy at most one. -/
theorem haStep_queued_le (s : HAState) (e : HAEvent) (h : s.queued ≤ 1) :
    (haStep s e).queued ≤ 1 := by
  cases e <;> simp only [haStep, reloadRequest] <;> split <;> simp_all

/-- The queue occupancy stays at most one along every run. -/
theorem haRun_queued_le : ∀ (es : List HAEvent) (s : HAState),
    s.queued ≤ 1 → (haRun s es).queued ≤ 1 := by
  intro es
  induction es with
  | nil => intro s h; exact h
  | cons e rest ih =>
    intro s h
    rw [haRun_cons]
    exact ih _ (haStep_queued_le s e h)

/-- C4: reload requests are deduplicated by the capacity-1 queue.  From
an idle controller, a nonempty burst of register/deregister calls leaves
exactly one request pending and executes no reload during the burst;
when the debounce timer then fires, exactly one reload executes, the
slot empties, and the config the replacement instance reads is the
render of the registry after the whole burst (the latest state).  Along
any event sequence at most one request is ever pending. -/
theorem reload_burst_coalesces (s : HAState) (ops es : List HAEvent)
    (hq : s.queued = 0) (hconf : s.conf = renderBackends s.backends)
    (hne : ops ≠ []) (hmut : ∀ e ∈ ops, isMutation e = true) :
    (haRun s ops).queued = 1 ∧
    (haRun s ops).execs = s.execs ∧
    (haStep (haRun s ops) HAEvent.timerFire).execs = s.execs + 1 ∧
    (haStep (haRun s ops) HAEvent.timerFire).queued = 0 ∧
    (haStep (haRun s ops) HAEvent.timerFire).conf
        = renderBackends (haRun s ops).backends ∧
    (haRun haInit es).queued ≤ 1 := by
  obtain ⟨e, rest, rfl⟩ := List.exists_cons_of_ne_nil hne
  have he := hmut e (by simp)
  obtain ⟨hex, hqe, _⟩ := haStep_mut e he s
  have hq1 : (haStep s e).queued = 1 := by simp [hqe, hq]
  obtain ⟨hqf, hexf⟩ :=
    haRun_mut_pending rest (fun x hx => hmut x (by simp [hx])) (haStep s e) hq1
  rw [haRun_cons]
  have ht := haStep_timerFire (haRun (haStep s e) rest) hqf
  refine ⟨hqf, hexf.trans hex, ?_, ?_, ?_,
    haRun_queued_le es haInit (by simp [haInit])⟩
  · rw [ht]
    show (haRun (haStep s e) rest).execs + 1 = s.execs + 1
    rw [hexf, hex]
  · rw [ht]
  · rw [ht]
    show (haRun (haStep s e) rest).conf
        = renderBackends (haRun (haStep s e) rest).backends
    exact haRun_conf rest (haStep s e) (haStep_conf s e hconf)

/-- Witness for C4: a burst of two registrations from the idle initial
state, followed by the timer firing. -/
theorem reload_burst_coalesces_witness :
    (haRun haInit [HAEvent.addBackend 30001, HAEvent.addBackend 30002]).queued = 1 ∧
    (haRun haInit [HAEvent.addBackend 30001, HAEvent.addBackend 30002]).execs
        = haInit.execs ∧
    (haStep (haRun haInit [HAEvent.addBackend 30001, HAEvent.addBackend 30002])
        HAEvent.timerFire).execs = haInit.execs + 1 ∧
    (haStep (haRun haInit [HAEvent.addBackend 30001, HAEvent.addBackend 30002])
        HAEvent.timerFire).queued = 0 ∧
    (haStep (haRun haInit [HAEvent.addBackend 30001, HAEvent.addBackend 30002])
        HAEvent.timerFire).conf
        = renderBackends
            (haRun haInit [HAEvent.addBackend 30001, HAEvent.addBackend 30002]).backends ∧
    (haRun haInit [HAEvent.addBackend 30001, HAEvent.timerFire]).queued ≤ 1 :=
  reload_burst_coalesces haInit
    [HAEvent.addBackend 30001, HAEvent.addBackend 30002]
    [HAEvent.addBackend 30001, HAEvent.timerFire]
    rfl rfl (by simp) (by decide)

/-- C5: on every retirement path of RunProxy (shutdown signal, tor exit,
privoxy exit, lifetime timeout) the backend deregistration is the first
action, both process kills happen strictly after it, and the port
release is the final action, strictly after both kills. -/
theorem retire_deregisters_before_kill (r : RetireReason) (t p : Nat) :
    ((runProxyRetire t p r).findIdx isDereg
        < (runProxyRetire t p r).findIdx isKill) ∧
    ((runProxyRetire t p r).findIdx isKill
        < (runProxyRetire t p r).findIdx isRelease) ∧
    ((runProxyRetire t p r).findIdx isDereg < (runProxyRetire t p r).length) ∧
    ((runProxyRetire t p r).findIdx isRelease
        = (runProxyRetire t p r).length - 1) ∧
    ((runProxyRetire t p r).getD ((runProxyRetire t p r).findIdx isDereg)
        PairAction.closeTor = PairAction.removeBackend p) ∧
    (((runProxyRetire t p r).filter isKill).length = 2) := by
  cases r <;>
    simp [runProxyRetire, isDereg, isKill, isRelease, List.findIdx, List.findIdx.go]

/-- C6: Cmd.Close on an already-exited process returns no error and does
not kill (idempotent no-op); on a running process it kills and reaps,
returning the kill error or else the reap outcome; at the service-level
Close wrapper the expected signal-killed reap outcome is not surfaced as
a kill failure and the call ends in the cleanup result (success when the
directory removal succeeds), while any other error is surfaced in the
failed-to-kill-server log. -/
theorem close_idempotent_and_kill_semantics
    (kE wE rmErr : Option String) (e : String) :
    cmdClose { exited := true, killErr := kE, waitErr := wE }
        = { err := none, killInvoked := false } ∧
    cmdClose { exited := false, killErr := none, waitErr := wE }
        = { err := wE, killInvoked := true } ∧
    cmdClose { exited := false, killErr := some e, waitErr := wE }
        = { err := some e, killInvoked := true } ∧
    torClose { exited := false, killErr := none, waitErr := some "signal: killed" }
        rmErr = { err := rmErr, loggedKillError := false } ∧
    (torClose { exited := false, killErr := none, waitErr := some e } rmErr).err
        = rmErr ∧
    (torClose { exited := false, killErr := none, waitErr := some e }
        rmErr).loggedKillError = !(e == "signal: killed") := by
  refine ⟨rfl, ?_, rfl, ?_, rfl, rfl⟩
  · cases wE <;> rfl
  · simp [torClose, cmdClose]

/-- C8 (code behavior at the failing input): an HAProxy alert line is
classified by HAProxyLogger as level error, but the switch in Cmd.Wait
recognizes only debug, warn, err and fatal, so the line is emitted at
info severity rather than error; any unrecognized level string likewise
falls through to info rather than failing. -/
theorem alert_line_emitted_at_info :
    haproxyLogger (("[ALERT] 122: x").toList)
        = some (("error").toList, ("x").toList) ∧
    (haproxyLogger (("[ALERT] 122: x").toList)).map (fun r => waitDispatch r.1)
        = some LogLevel.info ∧
    waitDispatch (("error").toList) = LogLevel.info ∧
    waitDispatch (("err").toList) = LogLevel.error ∧
    waitDispatch (("fatal").toList) = LogLevel.error ∧
    waitDispatch (("debug").toList) = LogLevel.debug ∧
    waitDispatch (("warn").toList) = LogLevel.warn ∧
    waitDispatch (("notice").toList) = LogLevel.info := by
  refine ⟨by decide, by decide, by decide, by decide, by decide, by decide,
    by decide, by decide⟩

/-- The scanner loop of Cmd.Wait never fires the completion signal. -/
theorem countP_doneFired_emits (emits : List (LogLevel × List Char)) :
    (emits.map fun e => WaitEvent.emitted e.1 e.2).countP isDoneFired = 0 := by
  induction emits with
  | nil => rfl
  | cons e rest ih => simp [List.countP_cons, isDoneFired, ih]

/-- In the Wait trace, the process exit is reaped right after the last
emitted line. -/
theorem findIdx_processExit (emits : List (LogLevel × List Char)) :
    (cmdWaitTrace emits).findIdx isProcessExit = emits.length := by
  induction emits with
  | nil => rfl
  | cons e rest ih =>
    simp only [cmdWaitTrace, List.map_cons, List.cons_append, List.findIdx_cons,
      isProcessExit]
    simpa [cmdWaitTrace] using ih

/-- In the Wait trace, the completion signal is the last step. -/
theorem findIdx_doneFired (emits : List (LogLevel × List Char)) :
    (cmdWaitTrace emits).findIdx isDoneFired = emits.length + 1 := by
  induction emits with
  | nil => rfl
  | cons e rest ih =>
    simp only [cmdWaitTrace, List.map_cons, List.cons_append, List.findIdx_cons,
      isDoneFired]
    simpa [cmdWaitTrace] using ih

/-- C9: in every execution of Cmd.Wait the completion signal fires
exactly once, strictly after the process exit has been reaped, as the
final step; and once the done channel is closed, a receive returns the
signal immediately without consuming it or changing the channel, so any
number of waiters, including late subscribers and repeated observers,
all see it. -/
theorem done_signal_once_after_exit
    (emits : List (LogLevel × List Char)) (d : DoneSignal) :
    (cmdWaitTrace emits).countP isDoneFired = 1 ∧
    (cmdWaitTrace emits).findIdx isProcessExit
        < (cmdWaitTrace emits).findIdx isDoneFired ∧
    (cmdWaitTrace emits).findIdx isDoneFired = (cmdWaitTrace emits).length - 1 ∧
    observeDone (fireDone d) = (true, fireDone d) ∧
    observeDone (observeDone (fireDone d)).2 = (true, fireDone d) ∧
    fireDone (fireDone d) = fireDone d := by
  refine ⟨?_, ?_, ?_, rfl, rfl, rfl⟩
  · rw [cmdWaitTrace, List.countP_append, countP_doneFired_emits]
    rfl
  · rw [findIdx_processExit, findIdx_doneFired]
    omega
  · rw [findIdx_doneFired]
    simp [cmdWaitTrace]

/-- A negative index makes the slice panic. -/
theorem goDrop_neg {s : List Char} {i : Int} (h : i < 0) : goDrop s i = none := by
  rw [goDrop, if_neg]
  rintro ⟨h0, -⟩
  omega

/-- An index past the length makes the slice panic. -/
theorem goDrop_big {s : List Char} {i : Int} (h : (s.length : Int) < i) :
    goDrop s i = none := by
  rw [goDrop, if_neg]
  rintro ⟨-, h1⟩
  omega

/-- An in-range suffix slice. -/
theorem goDrop_ok {s : List Char} {i : Int} (h0 : 0 ≤ i)
    (h1 : i ≤ (s.length : Int)) : goDrop s i = some (s.drop i.toNat) := by
  rw [goDrop, if_pos ⟨h0, h1⟩]

/-- A negative index makes the prefix slice panic. -/
theorem goTake_neg {s : List Char} {i : Int} (h : i < 0) : goTake s i = none := by
  rw [goTake, if_neg]
  rintro ⟨h0, -⟩
  omega

/-- An in-range prefix slice. -/
theorem goTake_ok {s : List Char} {i : Int} (h0 : 0 ≤ i)
    (h1 : i ≤ (s.length : Int)) : goTake s i = some (s.take i.toNat) := by
  rw [goTake, if_pos ⟨h0, h1⟩]

/-- idxOfChar finds nothing when the character is absent. -/
theorem idxOfChar_eq_none_of_not_mem {c : Char} : ∀ {s : List Char}, c ∉ s →
    idxOfChar c s = none := by
  intro s
  induction s with
  | nil => intro _; rfl
  | cons a rest ih =>
    intro h
    rw [List.mem_cons, not_or] at h
    have ha : (a == c) = false := by
      simp only [beq_eq_false_iff_ne, ne_eq]
      exact fun hac => h.1 hac.symm
    simp [idxOfChar, ha, ih h.2]

/-- idxOfChar returns an index inside the list. -/
theorem idxOfChar_lt_length {c : Char} : ∀ {s : List Char} {i : Nat},
    idxOfChar c s = some i → i < s.length := by
  intro s
  induction s with
  | nil => intro i h; simp [idxOfChar] at h
  | cons a rest ih =>
    intro i h
    rw [show idxOfChar c (a :: rest)
        = if a == c then some 0 else (idxOfChar c rest).map (fun i => i + 1)
      from rfl] at h
    by_cases ha : (a == c) = true
    · rw [if_pos ha] at h
      have h0 : (0 : Nat) = i := Option.some.inj h
      simp [← h0]
    · rw [if_neg ha] at h
      rcases hrest : idxOfChar c rest with - | j
      · rw [hrest] at h
        simp at h
      · rw [hrest] at h
        simp only [Option.map_some'] at h
        have hji : j + 1 = i := Option.some.inj h
        have hlt := ih hrest
        simp only [List.length_cons]
        omega

/-- idxOfChar finds something when the character is present. -/
theorem idxOfChar_isSome_of_mem {c : Char} : ∀ {s : List Char}, c ∈ s →
    ∃ i, idxOfChar c s = some i := by
  intro s
  induction s with
  | nil => intro h; simp at h
  | cons a rest ih =>
    intro h
    by_cases ha : (a == c) = true
    · exact ⟨0, by simp [idxOfChar, ha]⟩
    · have hc : c ∈ rest := by
        rcases List.mem_cons.1 h with h1 | h1
        · exact absurd (by simp [h1.symm] : (a == c) = true) (by simpa using ha)
        · exact h1
      obtain ⟨i, hi⟩ := ih hc
      exact ⟨i + 1, by simp [idxOfChar, ha, hi]⟩

/-- strings.Index yields -1 when the character is absent. -/
theorem goIndexOf_not_mem {s : List Char} {c : Char} (h : c ∉ s) :
    goIndexOf s c = -1 := by
  rw [goIndexOf, idxOfChar_eq_none_of_not_mem h]

/-- strings.Index yields an in-range index when the character occurs. -/
theorem goIndexOf_mem {s : List Char} {c : Char} (h : c ∈ s) :
    ∃ i : Nat, goIndexOf s c = (i : Int) ∧ i < s.length := by
  obtain ⟨i, hi⟩ := idxOfChar_isSome_of_mem h
  exact ⟨i, by rw [goIndexOf, hi], idxOfChar_lt_length hi⟩

/-- TorLogger aborts on every line shorter than 22 characters: a line
shorter than 21 fails the initial 21-character slice, and at exactly 21
the sliced remainder is empty so the bracket search yields -1 and the
level slice is out of range. -/
theorem torLogger_short {line : List Char} (h : line.length < 22) :
    torLogger line = none := by
  unfold torLogger
  by_cases h21 : line.length = 21
  · have hdrop : line.drop ((21 : Int).toNat) = [] :=
      List.drop_eq_nil_of_le (by simp [h21])
    rw [goDrop_ok (by norm_num) (by omega)]
    simp only [Option.some_bind, hdrop]
    simp [goIndexOf, idxOfChar, goTake]
  · rw [goDrop_big (by omega)]
    rfl

/-- TorLogger aborts on every line lacking a closing bracket. -/
theorem torLogger_no_bracket {line : List Char} (h : ']' ∉ line) :
    torLogger line = none := by
  unfold torLogger
  by_cases h21 : 21 ≤ line.length
  · rw [goDrop_ok (by norm_num) (by omega)]
    simp only [Option.some_bind]
    have hmem : ']' ∉ line.drop ((21 : Int).toNat) :=
      fun hc => h (List.mem_of_mem_drop hc)
    rw [goIndexOf_not_mem hmem, goTake_neg (by norm_num)]
    rfl
  · rw [goDrop_big (by omega)]
    rfl

/-- HAProxyLogger aborts on every line lacking a closing bracket
(including the empty line, which already fails the 1-character slice). -/
theorem haproxyLogger_no_bracket {line : List Char} (h : ']' ∉ line) :
    haproxyLogger line = none := by
  unfold haproxyLogger
  by_cases h1 : 1 ≤ line.length
  · rw [goDrop_ok (by norm_num) (by omega)]
    simp only [Option.some_bind]
    have hmem : ']' ∉ line.drop ((1 : Int).toNat) :=
      fun hc => h (List.mem_of_mem_drop hc)
    rw [goIndexOf_not_mem hmem, goTake_neg (by norm_num)]
    rfl
  · rw [goDrop_big (by omega)]
    rfl

/-- Contrary to an abort, HAProxyLogger succeeds on a line that contains
a closing bracket past its first character but no colon: the message
slice index becomes -1+2 = 1, which is in range because the remainder
starts at the bracket. -/
theorem haproxyLogger_no_colon_ok {line : List Char}
    (hb : ']' ∈ line.drop 1) (hc : ':' ∉ line) :
    (haproxyLogger line).isSome = true := by
  unfold haproxyLogger
  have h1 : 1 ≤ line.length := by
    by_contra h0
    rw [List.drop_eq_nil_of_le (by omega)] at hb
    simp at hb
  rw [goDrop_ok (by norm_num) (by omega)]
  simp only [Option.some_bind]
  have hb1 : ']' ∈ line.drop ((1 : Int).toNat) := by
    simpa using hb
  obtain ⟨i, hgi, hilt⟩ := goIndexOf_mem hb1
  rw [hgi]
  rw [goTake_ok (by omega) (by exact_mod_cast Nat.le_of_lt hilt)]
  simp only [Option.some_bind]
  rw [goDrop_ok (by omega) (by exact_mod_cast Nat.le_of_lt hilt)]
  simp only [Option.some_bind]
  have hc2 : ':' ∉ (line.drop ((1 : Int).toNat)).drop ((i : Int).toNat) :=
    fun hx => hc (List.mem_of_mem_drop (List.mem_of_mem_drop hx))
  rw [goIndexOf_not_mem hc2]
  have hlen2 : 1 ≤ ((line.drop ((1 : Int).toNat)).drop ((i : Int).toNat)).length := by
    rw [List.length_drop]
    simp only [Int.toNat_natCast]
    omega
  rw [show (-1 : Int) + 2 = 1 by norm_num]
  rw [goDrop_ok (by norm_num) (by exact_mod_cast hlen2)]
  rfl

/-- PrivoxyLogger aborts on every line shorter than 38 characters. -/
theorem privoxyLogger_short {line : List Char} (h : line.length < 38) :
    privoxyLogger line = none := by
  unfold privoxyLogger
  by_cases h37 : line.length = 37
  · have hdrop : line.drop ((37 : Int).toNat) = [] :=
      List.drop_eq_nil_of_le (by simp [h37])
    rw [goDrop_ok (by norm_num) (by omega)]
    simp only [Option.some_bind, hdrop]
    simp [goIndexOf, idxOfChar, goTake]
  · rw [goDrop_big (by omega)]
    rfl

/-- PrivoxyLogger aborts on every line lacking a colon. -/
theorem privoxyLogger_no_colon {line : List Char} (h : ':' ∉ line) :
    privoxyLogger line = none := by
  unfold privoxyLogger
  by_cases h37 : 37 ≤ line.length
  · rw [goDrop_ok (by norm_num) (by omega)]
    simp only [Option.some_bind]
    have hmem : ':' ∉ line.drop ((37 : Int).toNat) :=
      fun hc => h (List.mem_of_mem_drop hc)
    rw [goIndexOf_not_mem hmem, goTake_neg (by norm_num)]
    rfl
  · rw [goDrop_big (by omega)]
    rfl

/-- C10 counterexample: the line with a bracket but no colon does not
abort in HAProxyLogger; it returns level error and the remainder one
character past the bracket as the message. -/
theorem haproxyLogger_missing_colon_returns :
    haproxyLogger (("[ALERT] oops").toList)
      = some (("error").toList, ((" oops").toList)) := by
  decide

/-- C10 amended: TorLogger aborts on lines shorter than 22 characters or
lacking a closing bracket; HAProxyLogger aborts on lines lacking a
closing bracket, but a line containing a bracket past its first
character while lacking a colon does not abort; PrivoxyLogger aborts on
lines shorter than 38 characters or lacking a colon. -/
theorem logger_partiality_amended
    (l1 l2 l3 l4 l5 l6 : List Char)
    (h1 : l1.length < 22) (h2 : ']' ∉ l2) (h3 : ']' ∉ l3)
    (h4a : ']' ∈ l4.drop 1) (h4b : ':' ∉ l4)
    (h5 : l5.length < 38) (h6 : ':' ∉ l6) :
    torLogger l1 = none ∧ torLogger l2 = none ∧
    haproxyLogger l3 = none ∧ (haproxyLogger l4).isSome = true ∧
    privoxyLogger l5 = none ∧ privoxyLogger l6 = none :=
  ⟨torLogger_short h1, torLogger_no_bracket h2, haproxyLogger_no_bracket h3,
    haproxyLogger_no_colon_ok h4a h4b, privoxyLogger_short h5,
    privoxyLogger_no_colon h6⟩

/-- Witness for the amended C10 on concrete lines. -/
theorem logger_partiality_amended_witness :
    torLogger (("too short").toList) = none ∧
    torLogger (("a long line without any closing square bracket").toList) = none ∧
    haproxyLogger (("no bracket here").toList) = none ∧
    (haproxyLogger (("[ALERT] oops").toList)).isSome = true ∧
    privoxyLogger (("short").toList) = none ∧
    privoxyLogger
        (("a long line that has no separator character anywhere").toList)
      = none :=
  logger_partiality_amended _ _ _ _ _ _ (by decide) (by decide) (by decide)
    (by decide) (by decide) (by decide) (by decide)
